import Mathlib

/-!
# Verification of the Receipt-O-Matic pricing, formatting and receipt logic

This development shallowly embeds the receipt-printer program
(`src/__main__.py`) in Lean 4.

Modelling choices:

* Python strings are modelled as `List Char` (abbreviation `PyStr`); the
  string operations used by the source (`split(".")[-1]`, `endswith`,
  indexing `[-1]`, slicing `[0:-1]`, concatenation in f-strings) become the
  corresponding list operations.
* The monetary values the program manipulates are floats whose shortest
  decimal representation has at most two fractional digits (rates are
  two-decimal currency amounts, and `round_down` first applies
  `round(x, 2)`).  Such a value is represented exactly by its number of
  cents (`ℕ`), and `str(x)` of such a value (Python's shortest repr, which
  strips trailing fractional zeros but keeps at least one fractional
  digit) is `floatStr`.
* `round(x, 2)` on an arbitrary non-negative value is modelled on `ℚ` by
  `pyRound2Cents`, rounding half to even as Python's `round` does.
* The receipt printer (`escpos` Serial sink) is modelled as a trace of the
  primitive calls the program makes on it (`SinkOp`), and the interactive
  dialogs as a trace of UI events (`UIEvent`).
-/

/-- Python strings are modelled as lists of characters. -/
abbrev PyStr := List Char

/-- Numeric value of a decimal digit character ('0' ↦ 0, …, '9' ↦ 9). -/
def charVal (c : Char) : ℕ := c.toNat - '0'.toNat

/-- Decimal digits of `n`, little-endian, computed with structural
recursion on a fuel argument so that the kernel can evaluate it. -/
def toDigitsRev : ℕ → ℕ → List ℕ
  | 0, _ => []
  | _ + 1, 0 => []
  | fuel + 1, n + 1 => (n + 1) % 10 :: toDigitsRev fuel ((n + 1) / 10)

/-- Decimal digits of `n`, little-endian (agrees with `Nat.digits 10`). -/
def natDigitsLE (n : ℕ) : List ℕ := toDigitsRev n n

/-- The decimal string of a natural number, as Python's `str` produces it
for the integral part of a number: most significant digit first, `"0"` for
zero. -/
def natChars (m : ℕ) : PyStr :=
  if m = 0 then ['0'] else ((natDigitsLE m).map Nat.digitChar).reverse

/-- Fractional digits of Python `str(x)` for the float `x = n / 100`
(shortest repr: trailing fractional zeros are stripped but at least one
fractional digit is kept, so `1.0 ↦ "0"`, `1.2 ↦ "2"`, `1.23 ↦ "23"`). -/
def pyFracDigits (n : ℕ) : PyStr :=
  if n % 100 = 0 then ['0']
  else if n % 10 = 0 then [Nat.digitChar ((n / 10) % 10)]
  else [Nat.digitChar ((n / 10) % 10), Nat.digitChar (n % 10)]

/-- Python `str(x)` for the non-negative float `x = n / 100` with at most
two fractional digits: integral part, a dot, then the fractional digits. -/
def floatStr (n : ℕ) : PyStr := natChars (n / 100) ++ '.' :: pyFracDigits n

/-- Python `s.split(".")[-1]`: the substring after the last dot (the whole
string when no dot occurs). -/
def splitDotLast (s : PyStr) : PyStr :=
  (s.reverse.takeWhile (fun c => c ≠ '.')).reverse

/-- Parse a string of decimal digits, as Python `int`/`float` read the
integral part: `Nat.ofDigits` of the digit values, least significant
last. -/
def parseNat (s : PyStr) : ℕ := Nat.ofDigits 10 ((s.map charVal).reverse)

/-- Python `float(s)` for a non-negative decimal literal with at most two
fractional digits, returned as a number of cents. -/
def parseFloatCents (s : PyStr) : ℕ :=
  let w := s.takeWhile (fun c => c ≠ '.')
  let f := (s.dropWhile (fun c => c ≠ '.')).drop 1
  parseNat w * 100 +
    (if f.length = 1 then 10 * charVal (f.getD 0 '0')
     else if 2 ≤ f.length then 10 * charVal (f.getD 0 '0') + charVal (f.getD 1 '0')
     else 0)

/-- Python `round(q, 0)` rounding mode: nearest integer, ties to even. -/
def bankersRound (q : ℚ) : ℤ :=
  if q - ⌊q⌋ < 1 / 2 then ⌊q⌋
  else if (1 : ℚ) / 2 < q - ⌊q⌋ then ⌊q⌋ + 1
  else if 2 ∣ ⌊q⌋ then ⌊q⌋ else ⌊q⌋ + 1

/-- Python `round(q, 2)` on a non-negative value, in cents. -/
def pyRound2Cents (q : ℚ) : ℕ := (bankersRound (100 * q)).toNat

/-- Source `round_down` (src/__main__.py:13), string logic, acting on the
cent value of the already-2dp-rounded number.  Mirrors the Python body:
the single-fractional-digit early return, the `endswith("0")`/
`endswith("5")` check, the final-digit membership test in
`["1","2","3","4"]` with its inner length test (whose `else` arm is
unreachable for float strings), and the `float(...)` reparse of the
edited string. -/
def round_down_cents (n : ℕ) : ℕ :=
  if (splitDotLast (floatStr n)).length = 1 then n
  else if (floatStr n).getLast? = some '0' ∨ (floatStr n).getLast? = some '5' then n
  else if (floatStr n).getLast? = some '1' ∨ (floatStr n).getLast? = some '2' ∨
          (floatStr n).getLast? = some '3' ∨ (floatStr n).getLast? = some '4' then
    if 1 < (splitDotLast (floatStr n)).length then
      parseFloatCents ((floatStr n).dropLast ++ ['0'])
    else
      parseFloatCents (floatStr n ++ ['0'])
  else
    parseFloatCents ((floatStr n).dropLast ++ ['5'])

/-- Source `round_down` (src/__main__.py:13) on a non-negative rational,
with the default `decimal_places = 2` used by its only caller: first
`round(number, 2)`, then the nickel string logic. -/
def round_down (q : ℚ) : ℚ := (round_down_cents (pyRound2Cents q) : ℚ) / 100

/-- Source `format_currency` (src/__main__.py:42) on the cent value of a
non-negative float with at most two fractional digits: append a `'0'`
when `str(number).split(".")[-1]` has exactly one character, else return
`str(number)` unchanged. -/
def format_currency (n : ℕ) : PyStr :=
  if (splitDotLast (floatStr n)).length = 1 then floatStr n ++ ['0']
  else floatStr n

/-- The nickel rule exactly as the specification states it, arithmetically
on cents: one fractional digit or final cent digit 0/5 means unchanged,
digits 1–4 are replaced by 0, digits 6–9 by 5. -/
def nickelSpec (n : ℕ) : ℕ :=
  if n % 10 = 0 ∨ n % 10 = 5 then n
  else if n % 10 ≤ 4 then n - n % 10
  else n - n % 10 + 5

theorem toDigitsRev_eq_digits (fuel n : ℕ) (h : n ≤ fuel) :
    toDigitsRev fuel n = Nat.digits 10 n := by
  induction fuel generalizing n with
  | zero =>
    interval_cases n
    simp [toDigitsRev]
  | succ fuel ih =>
    cases n with
    | zero => simp [toDigitsRev]
    | succ n =>
      rw [toDigitsRev, Nat.digits_def' (by norm_num : 1 < 10) (Nat.succ_pos n)]
      rw [ih ((n + 1) / 10) ?_]
      have h1 : (n + 1) / 10 < n + 1 := Nat.div_lt_self (Nat.succ_pos n) (by norm_num)
      omega

theorem natDigitsLE_eq_digits (n : ℕ) : natDigitsLE n = Nat.digits 10 n :=
  toDigitsRev_eq_digits n n le_rfl

theorem charVal_digitChar {d : ℕ} (h : d < 10) : charVal (Nat.digitChar d) = d := by
  interval_cases d <;> decide

theorem digitChar_ne_dot {d : ℕ} (h : d < 10) : Nat.digitChar d ≠ '.' := by
  interval_cases d <;> decide

theorem digitChar_ne_dollar {d : ℕ} (h : d < 10) : Nat.digitChar d ≠ '$' := by
  interval_cases d <;> decide

theorem dot_not_mem_natChars (m : ℕ) : '.' ∉ natChars m := by
  unfold natChars
  split
  · decide
  · intro hmem
    rw [List.mem_reverse, List.mem_map] at hmem
    obtain ⟨d, hd, hdc⟩ := hmem
    rw [natDigitsLE_eq_digits] at hd
    exact digitChar_ne_dot (Nat.digits_lt_base (by norm_num) hd) hdc

theorem dot_not_mem_pyFracDigits (n : ℕ) : '.' ∉ pyFracDigits n := by
  have h1 : Nat.digitChar ((n / 10) % 10) ≠ '.' :=
    digitChar_ne_dot (Nat.mod_lt _ (by norm_num))
  have h2 : Nat.digitChar (n % 10) ≠ '.' :=
    digitChar_ne_dot (Nat.mod_lt _ (by norm_num))
  unfold pyFracDigits
  split_ifs
  · decide
  · intro hmem
    rw [List.mem_singleton] at hmem
    exact h1 hmem.symm
  · intro hmem
    rcases List.mem_cons.mp hmem with h | h
    · exact h1 h.symm
    · rw [List.mem_singleton] at h
      exact h2 h.symm

theorem parseNat_natChars (m : ℕ) : parseNat (natChars m) = m := by
  unfold parseNat natChars
  split
  · simp only [*]
    decide
  · rw [natDigitsLE_eq_digits]
    rw [List.map_reverse, List.reverse_reverse]
    have hmap : (Nat.digits 10 m).map (charVal ∘ Nat.digitChar) =
        (Nat.digits 10 m).map id :=
      List.map_congr_left fun d hd =>
        charVal_digitChar (Nat.digits_lt_base (by norm_num) hd)
    rw [List.map_map, hmap, List.map_id, Nat.ofDigits_digits]

theorem splitDotLast_append (a f : PyStr) (hf : '.' ∉ f) :
    splitDotLast (a ++ '.' :: f) = f := by
  unfold splitDotLast
  rw [List.reverse_append, List.reverse_cons, List.append_assoc]
  rw [List.takeWhile_append_of_pos ?_]
  · rw [List.singleton_append, List.takeWhile_cons_of_neg (by simp)]
    simp
  · intro c hc
    rw [List.mem_reverse] at hc
    simp only [ne_eq, decide_eq_true_eq]
    intro hcd
    exact hf (hcd ▸ hc)

theorem splitDotLast_floatStr (n : ℕ) :
    splitDotLast (floatStr n) = pyFracDigits n :=
  splitDotLast_append _ _ (dot_not_mem_pyFracDigits n)

theorem parseFloatCents_append_two (a : PyStr) (ha : '.' ∉ a) (c1 c2 : Char) :
    parseFloatCents (a ++ '.' :: [c1, c2]) =
      parseNat a * 100 + (10 * charVal c1 + charVal c2) := by
  unfold parseFloatCents
  have hall : ∀ c ∈ a, (fun c => decide (c ≠ '.')) c = true := by
    intro c hc
    simp only [ne_eq, decide_eq_true_eq]
    intro hcd
    exact ha (hcd ▸ hc)
  rw [List.takeWhile_append_of_pos hall, List.dropWhile_append_of_pos hall]
  rw [List.takeWhile_cons_of_neg (by simp), List.dropWhile_cons_of_neg (by simp)]
  simp

theorem length_pyFracDigits_eq_one_iff (n : ℕ) :
    (pyFracDigits n).length = 1 ↔ n % 10 = 0 := by
  unfold pyFracDigits
  split_ifs with h1 h2 <;> simp <;> omega

theorem pyFracDigits_of_mod_ne (n : ℕ) (h : n % 10 ≠ 0) :
    pyFracDigits n = [Nat.digitChar ((n / 10) % 10), Nat.digitChar (n % 10)] := by
  unfold pyFracDigits
  rw [if_neg (by omega), if_neg h]

theorem round_down_cents_eq_nickelSpec (n : ℕ) :
    round_down_cents n = nickelSpec n := by
  by_cases h0 : n % 10 = 0
  · have hlen : (splitDotLast (floatStr n)).length = 1 := by
      rw [splitDotLast_floatStr]
      exact (length_pyFracDigits_eq_one_iff n).2 h0
    rw [round_down_cents, if_pos hlen, nickelSpec, if_pos (Or.inl h0)]
  · have hf := pyFracDigits_of_mod_ne n h0
    have hsplit : splitDotLast (floatStr n) =
        [Nat.digitChar ((n / 10) % 10), Nat.digitChar (n % 10)] := by
      rw [splitDotLast_floatStr, hf]
    have hshape : floatStr n =
        (natChars (n / 100) ++ ['.', Nat.digitChar ((n / 10) % 10)]) ++
          [Nat.digitChar (n % 10)] := by
      rw [floatStr, hf]
      simp
    have hlast : (floatStr n).getLast? = some (Nat.digitChar (n % 10)) := by
      rw [hshape]
      exact List.getLast?_concat _
    have hdrop : (floatStr n).dropLast =
        natChars (n / 100) ++ ['.', Nat.digitChar ((n / 10) % 10)] := by
      rw [hshape]
      exact List.dropLast_concat
    have hd1 : charVal (Nat.digitChar ((n / 10) % 10)) = (n / 10) % 10 :=
      charVal_digitChar (Nat.mod_lt _ (by norm_num))
    have h10 : parseFloatCents ((floatStr n).dropLast ++ ['0']) = n - n % 10 := by
      rw [hdrop, List.append_assoc]
      have := parseFloatCents_append_two (natChars (n / 100))
        (dot_not_mem_natChars _) (Nat.digitChar ((n / 10) % 10)) '0'
      simp only [List.cons_append, List.nil_append] at this ⊢
      rw [this, parseNat_natChars, hd1]
      have : charVal '0' = 0 := by decide
      rw [this]
      omega
    have h15 : parseFloatCents ((floatStr n).dropLast ++ ['5']) = n - n % 10 + 5 := by
      rw [hdrop, List.append_assoc]
      have := parseFloatCents_append_two (natChars (n / 100))
        (dot_not_mem_natChars _) (Nat.digitChar ((n / 10) % 10)) '5'
      simp only [List.cons_append, List.nil_append] at this ⊢
      rw [this, parseNat_natChars, hd1]
      have : charVal '5' = 5 := by decide
      rw [this]
      omega
    have hlen : ¬ (splitDotLast (floatStr n)).length = 1 := by
      rw [hsplit]
      simp
    have hlen2 : 1 < (splitDotLast (floatStr n)).length := by
      rw [hsplit]
      simp
    rw [round_down_cents, if_neg hlen, nickelSpec]
    have hrlt : n % 10 < 10 := Nat.mod_lt _ (by norm_num)
    have hcases : n % 10 = 1 ∨ n % 10 = 2 ∨ n % 10 = 3 ∨ n % 10 = 4 ∨ n % 10 = 5 ∨
        n % 10 = 6 ∨ n % 10 = 7 ∨ n % 10 = 8 ∨ n % 10 = 9 := by omega
    rcases hcases with h | h | h | h | h | h | h | h | h <;>
      rw [h] at hlast h10 h15 ⊢ <;>
      simp only [hlast, show (Nat.digitChar 1 = '1') from rfl, show (Nat.digitChar 2 = '2') from rfl,
        show (Nat.digitChar 3 = '3') from rfl, show (Nat.digitChar 4 = '4') from rfl,
        show (Nat.digitChar 5 = '5') from rfl, show (Nat.digitChar 6 = '6') from rfl,
        show (Nat.digitChar 7 = '7') from rfl, show (Nat.digitChar 8 = '8') from rfl,
        show (Nat.digitChar 9 = '9') from rfl] <;>
      norm_num <;>
      simp only [if_pos hlen2, h10, h15] <;>
      first
        | rw [if_neg (by decide), if_neg (by decide)]
        | rw [if_neg (by decide)]

theorem bankersRound_natCast (n : ℕ) : bankersRound (n : ℚ) = n := by
  unfold bankersRound
  rw [Int.floor_natCast]
  rw [if_pos (by push_cast; norm_num)]

theorem pyRound2Cents_div100 (n : ℕ) : pyRound2Cents ((n : ℚ) / 100) = n := by
  unfold pyRound2Cents
  have h : (100 : ℚ) * ((n : ℚ) / 100) = (n : ℚ) := by field_simp
  rw [h, bankersRound_natCast, Int.toNat_natCast]

theorem round_down_div100 (n : ℕ) : round_down ((n : ℚ) / 100) = (round_down_cents n : ℚ) / 100 := by
  rw [round_down, pyRound2Cents_div100]

theorem round_down_table (n m : ℕ) (h : round_down_cents n = m) :
    round_down ((n : ℚ) / 100) = (m : ℚ) / 100 := by
  rw [round_down_div100, h]

theorem format_currency_eq (n : ℕ) :
    format_currency n =
      natChars (n / 100) ++ '.' :: [Nat.digitChar ((n / 10) % 10), Nat.digitChar (n % 10)] := by
  by_cases h0 : n % 10 = 0
  · have hlen : (splitDotLast (floatStr n)).length = 1 := by
      rw [splitDotLast_floatStr]
      exact (length_pyFracDigits_eq_one_iff n).2 h0
    rw [format_currency, if_pos hlen, floatStr, h0]
    rw [show Nat.digitChar 0 = '0' from rfl]
    by_cases h00 : n % 100 = 0
    · have hfd : pyFracDigits n = ['0'] := by
        rw [pyFracDigits, if_pos h00]
      have hq : (n / 10) % 10 = 0 := by omega
      rw [hfd, hq, show Nat.digitChar 0 = '0' from rfl]
      simp
    · have hfd : pyFracDigits n = [Nat.digitChar ((n / 10) % 10)] := by
        rw [pyFracDigits, if_neg h00, if_pos h0]
      rw [hfd]
      simp
  · have hlen : ¬ (splitDotLast (floatStr n)).length = 1 := by
      rw [splitDotLast_floatStr]
      intro hc
      exact h0 ((length_pyFracDigits_eq_one_iff n).1 hc)
    rw [format_currency, if_neg hlen, floatStr, pyFracDigits_of_mod_ne n h0]

theorem parseFloatCents_format_currency (n : ℕ) :
    parseFloatCents (format_currency n) = n := by
  rw [format_currency_eq,
    parseFloatCents_append_two _ (dot_not_mem_natChars _),
    parseNat_natChars,
    charVal_digitChar (Nat.mod_lt _ (by norm_num)),
    charVal_digitChar (Nat.mod_lt _ (by norm_num))]
  omega

theorem splitDotLast_format_currency (n : ℕ) :
    splitDotLast (format_currency n) =
      [Nat.digitChar ((n / 10) % 10), Nat.digitChar (n % 10)] := by
  rw [format_currency_eq]
  apply splitDotLast_append
  intro hmem
  rcases List.mem_cons.mp hmem with h | h
  · exact digitChar_ne_dot (Nat.mod_lt _ (by norm_num)) h.symm
  · rw [List.mem_singleton] at h
    exact digitChar_ne_dot (Nat.mod_lt _ (by norm_num)) h.symm

theorem length_splitDotLast_format_currency (n : ℕ) :
    (splitDotLast (format_currency n)).length = 2 := by
  rw [splitDotLast_format_currency]
  rfl

theorem dollar_not_mem_natChars (m : ℕ) : '$' ∉ natChars m := by
  unfold natChars
  split
  · decide
  · intro hmem
    rw [List.mem_reverse, List.mem_map] at hmem
    obtain ⟨d, hd, hdc⟩ := hmem
    rw [natDigitsLE_eq_digits] at hd
    exact digitChar_ne_dollar (Nat.digits_lt_base (by norm_num) hd) hdc

theorem dollar_not_mem_format_currency (n : ℕ) : '$' ∉ format_currency n := by
  rw [format_currency_eq]
  intro hmem
  rcases List.mem_append.mp hmem with h | h
  · exact dollar_not_mem_natChars _ h
  · rcases List.mem_cons.mp h with h' | h'
    · exact absurd h' (by decide)
    · rcases List.mem_cons.mp h' with h'' | h''
      · exact digitChar_ne_dollar (Nat.mod_lt _ (by norm_num)) h''.symm
      · rw [List.mem_singleton] at h''
        exact digitChar_ne_dollar (Nat.mod_lt _ (by norm_num)) h''.symm

theorem five_dvd_round_down_cents (n : ℕ) : 5 ∣ round_down_cents n := by
  rw [round_down_cents_eq_nickelSpec, nickelSpec]
  split_ifs <;> omega

/-- C1: for every non-negative input, `round_down` first rounds to 2
decimal places and then applies the nickel digit rule (cent digit 0/5 or a
single fractional digit: unchanged; 1–4 ↦ 0; 6–9 ↦ 5); every multiple of
0.05 and every single-decimal-digit value is a fixed point, and the
spec's table 1.23→1.20, 1.27→1.25, 1.21→1.20, 1.24→1.20, 1.26→1.25,
1.29→1.25, 1.25→1.25, 1.20→1.20, 1.30→1.30 holds. -/
theorem C1_round_down_nickel_rule :
    (∀ q : ℚ, 0 ≤ q → round_down q = (nickelSpec (pyRound2Cents q) : ℚ) / 100) ∧
    (∀ k : ℕ, round_down ((k : ℚ) * 5 / 100) = (k : ℚ) * 5 / 100) ∧
    (∀ m : ℕ, round_down ((m : ℚ) / 10) = (m : ℚ) / 10) ∧
    round_down (123 / 100) = 120 / 100 ∧
    round_down (127 / 100) = 125 / 100 ∧
    round_down (121 / 100) = 120 / 100 ∧
    round_down (124 / 100) = 120 / 100 ∧
    round_down (126 / 100) = 125 / 100 ∧
    round_down (129 / 100) = 125 / 100 ∧
    round_down (125 / 100) = 125 / 100 ∧
    round_down (120 / 100) = 120 / 100 ∧
    round_down (130 / 100) = 130 / 100 := by
  refine ⟨?_, ?_, ?_, ?_, ?_, ?_, ?_, ?_, ?_, ?_, ?_, ?_⟩
  · intro q hq
    rw [round_down, round_down_cents_eq_nickelSpec]
  · intro k
    have hcast : (k : ℚ) * 5 / 100 = ((k * 5 : ℕ) : ℚ) / 100 := by
      push_cast
      ring
    rw [hcast, round_down_div100, round_down_cents_eq_nickelSpec, nickelSpec,
      if_pos (by omega : (k * 5) % 10 = 0 ∨ (k * 5) % 10 = 5)]
  · intro m
    have hcast : (m : ℚ) / 10 = ((m * 10 : ℕ) : ℚ) / 100 := by
      push_cast
      ring
    rw [hcast, round_down_div100, round_down_cents_eq_nickelSpec, nickelSpec,
      if_pos (by omega : (m * 10) % 10 = 0 ∨ (m * 10) % 10 = 5)]
  · have h := round_down_table 123 120 (by decide)
    push_cast at h
    exact h
  · have h := round_down_table 127 125 (by decide)
    push_cast at h
    exact h
  · have h := round_down_table 121 120 (by decide)
    push_cast at h
    exact h
  · have h := round_down_table 124 120 (by decide)
    push_cast at h
    exact h
  · have h := round_down_table 126 125 (by decide)
    push_cast at h
    exact h
  · have h := round_down_table 129 125 (by decide)
    push_cast at h
    exact h
  · have h := round_down_table 125 125 (by decide)
    push_cast at h
    exact h
  · have h := round_down_table 120 120 (by decide)
    push_cast at h
    exact h
  · have h := round_down_table 130 130 (by decide)
    push_cast at h
    exact h

/-- C1 witness: the general nickel-rule clause instantiated at the
concrete non-negative input 1.27. -/
theorem C1_round_down_nickel_rule_witness :
    (0 : ℚ) ≤ 127 / 100 ∧
      round_down (127 / 100) = (nickelSpec (pyRound2Cents (127 / 100)) : ℚ) / 100 :=
  ⟨by norm_num, C1_round_down_nickel_rule.1 (127 / 100) (by norm_num)⟩

/-- The process-wide configuration `settings.toml` (src/__main__.py:10).
The three rates are positive two-decimal currency amounts, held here as
cent values. -/
structure Config where
  SERIAL_PORT : String
  SUBLIMATION_RATE : ℕ
  MUG_RATE : ℕ
  FILAMENT_RATE : ℕ
  deriving DecidableEq

/-- One primitive call on the receipt-printer sink (the `escpos` `Serial`
object): the operations `print_sublimation`/`print_3dp` invoke.  `setOp`
records the keyword arguments of `set` that the program uses (`align`,
`normal_textsize`, `double_height`, `double_width`). -/
inductive SinkOp where
  | openOp : SinkOp
  | closeOp : SinkOp
  | setOp (align : Option String) (normal_textsize double_height double_width : Bool) : SinkOp
  | textOp (s : PyStr) : SinkOp
  | imageOp (path : String) : SinkOp
  | cutOp : SinkOp
  deriving DecidableEq

/-- Source `MakeItReceiptPrinter._print_header` (src/__main__.py:94):
centered normal-size logo image and library name. -/
def print_header : List SinkOp :=
  [SinkOp.setOp (some "center") true false false,
   SinkOp.imageOp "assets/makeit.png",
   SinkOp.textOp "Northville District Library\n".data]

/-- Source `MakeItReceiptPrinter._print_footer` (src/__main__.py:100). -/
def print_footer : List SinkOp := [SinkOp.textOp "\n\n".data]

/-- Source `MakeItReceiptPrinter.print_sublimation` (src/__main__.py:104)
as the trace of sink primitives it invokes, in order.  The mug lines are
emitted only when `cups != 0`, and the cost is
`pages * SUBLIMATION_RATE + cups * MUG_RATE` (exact cents), currency
formatted and never nickel rounded. -/
def print_sublimation (cfg : Config) (pages cups : ℕ) : List SinkOp :=
  [SinkOp.openOp] ++ print_header ++
  [SinkOp.setOp (some "center") false false false,
   SinkOp.textOp "Sublimation\n\n".data,
   SinkOp.setOp (some "left") false false false,
   SinkOp.setOp none false true true,
   SinkOp.textOp ("Pages:  ".data ++ natChars pages ++ "\n".data),
   SinkOp.textOp ("Rate:   $".data ++ format_currency cfg.SUBLIMATION_RATE ++ "/page\n".data)] ++
  (if cups ≠ 0 then
    [SinkOp.textOp ("Mugs:   ".data ++ natChars cups ++ "\n".data),
     SinkOp.textOp ("Rate:   $".data ++ format_currency cfg.MUG_RATE ++ "/mug\n\n".data)]
   else []) ++
  [SinkOp.textOp ("Cost:   $".data ++
      format_currency (pages * cfg.SUBLIMATION_RATE + cups * cfg.MUG_RATE) ++ "\n\n".data)] ++
  print_footer ++
  [SinkOp.cutOp, SinkOp.closeOp]

/-- Least `p ≤ 18` with `d ∣ 10 ^ p`, used to print a decimal rational. -/
def decExpQ (d : ℕ) : Option ℕ := (List.range 19).find? (fun p => 10 ^ p % d == 0)

/-- Left-pad a digit string with zeros to length `p`. -/
def padLeftZeros (s : PyStr) (p : ℕ) : PyStr := List.replicate (p - s.length) '0' ++ s

/-- Python `str()` of a non-negative float whose value is the decimal
rational `q` (shortest repr: minimal number of fractional digits, at
least one).  Only used to render the weight line of the 3D-print
receipt. -/
def pyStrQ (q : ℚ) : PyStr :=
  match decExpQ q.den with
  | some 0 => natChars q.num.toNat ++ ['.', '0']
  | some (p + 1) =>
      natChars (q.num.toNat * (10 ^ (p + 1) / q.den) / 10 ^ (p + 1)) ++
        '.' :: padLeftZeros (natChars (q.num.toNat * (10 ^ (p + 1) / q.den) % 10 ^ (p + 1))) (p + 1)
  | none => natChars q.num.toNat

/-- Source `MakeItReceiptPrinter.print_3dp` (src/__main__.py:143) as the
trace of sink primitives it invokes, in order.  The cost is
`weight * FILAMENT_RATE`, rounded by `round_down` and then currency
formatted; the weight and the raw rate are shown unrounded. -/
def print_3dp (cfg : Config) (name : PyStr) (weight : ℚ) : List SinkOp :=
  [SinkOp.openOp] ++ print_header ++
  [SinkOp.setOp (some "center") false false false,
   SinkOp.textOp "3D Print Job\n\n".data,
   SinkOp.setOp (some "left") false false false,
   SinkOp.setOp none false true true,
   SinkOp.textOp (name ++ "\n\n".data),
   SinkOp.textOp ("Weight: ".data ++ pyStrQ weight ++ "g\n".data),
   SinkOp.textOp ("Rate:   $".data ++ floatStr cfg.FILAMENT_RATE ++ "/g\n\n".data),
   SinkOp.textOp ("Cost:   $".data ++
      format_currency (round_down_cents (pyRound2Cents (weight * (cfg.FILAMENT_RATE : ℚ) / 100))) ++
      "\n\n".data)] ++
  print_footer ++
  [SinkOp.cutOp, SinkOp.closeOp]

/-- The text lines a trace of sink operations emits, in order. -/
def textsOf (ops : List SinkOp) : List PyStr :=
  ops.filterMap fun op =>
    match op with
    | SinkOp.textOp s => some s
    | _ => none

theorem pyRound2Cents_eval (q : ℚ) (n : ℕ) (h1 : (n : ℚ) ≤ 100 * q)
    (h2 : 100 * q < (n : ℚ) + 1 / 2) : pyRound2Cents q = n := by
  unfold pyRound2Cents bankersRound
  have hfl : ⌊(100 : ℚ) * q⌋ = (n : ℤ) := by
    apply Int.floor_eq_iff.2
    constructor
    · exact_mod_cast h1
    · push_cast
      linarith
  rw [hfl, if_pos (by push_cast; linarith)]
  exact Int.toNat_natCast n

/-- C2: the 3D-print receipt's cost line is
`format_currency (round_down (weight * FILAMENT_RATE))`; the sublimation
receipt's cost line is the raw (never nickel-rounded) formatted sum, and
at 3 cents the two differ, so the rounding really is applied only to the
3D-print product; at weight 37.4 g and rate $0.03/g the displayed cost is
`$1.10`. -/
theorem C2_print_3dp_cost_line :
    (∀ (cfg : Config) (name : PyStr) (w : ℚ), 0 ≤ w →
       textsOf (print_3dp cfg name w) =
         ["Northville District Library\n".data,
          "3D Print Job\n\n".data,
          name ++ "\n\n".data,
          "Weight: ".data ++ pyStrQ w ++ "g\n".data,
          "Rate:   $".data ++ floatStr cfg.FILAMENT_RATE ++ "/g\n\n".data,
          "Cost:   $".data ++
            format_currency (round_down_cents (pyRound2Cents (w * (cfg.FILAMENT_RATE : ℚ) / 100))) ++
            "\n\n".data,
          "\n\n".data]) ∧
    (∀ (cfg : Config) (pages cups : ℕ),
       SinkOp.textOp ("Cost:   $".data ++
           format_currency (pages * cfg.SUBLIMATION_RATE + cups * cfg.MUG_RATE) ++
           "\n\n".data) ∈ print_sublimation cfg pages cups) ∧
    format_currency (1 * 3 + 0 * 500) ≠ format_currency (round_down_cents (1 * 3 + 0 * 500)) ∧
    format_currency (round_down_cents (pyRound2Cents ((187 / 5) * ((3 : ℕ) : ℚ) / 100))) =
      "1.10".data := by
  refine ⟨?_, ?_, by decide, ?_⟩
  · intro cfg name w hw
    simp [textsOf, print_3dp, print_header, print_footer]
  · intro cfg pages cups
    by_cases h : cups = 0 <;> simp [print_sublimation, print_header, print_footer, h]
  · have hc : pyRound2Cents ((187 / 5) * ((3 : ℕ) : ℚ) / 100) = 112 := by
      apply pyRound2Cents_eval
      · push_cast
        norm_num
      · push_cast
        norm_num
    rw [hc]
    decide

/-- C2 witness: the cost-line clause instantiated at a concrete
configuration, patron name and non-negative weight. -/
theorem C2_print_3dp_cost_line_witness :
    (0 : ℚ) ≤ 187 / 5 ∧
      textsOf (print_3dp ⟨"/dev/ttyUSB0", 10, 500, 3⟩ "Ada".data (187 / 5)) =
        ["Northville District Library\n".data,
         "3D Print Job\n\n".data,
         "Ada".data ++ "\n\n".data,
         "Weight: ".data ++ pyStrQ (187 / 5) ++ "g\n".data,
         "Rate:   $".data ++ floatStr (Config.mk "/dev/ttyUSB0" 10 500 3).FILAMENT_RATE ++ "/g\n\n".data,
         "Cost:   $".data ++
           format_currency (round_down_cents (pyRound2Cents
             ((187 / 5) * ((Config.mk "/dev/ttyUSB0" 10 500 3).FILAMENT_RATE : ℚ) / 100))) ++
           "\n\n".data,
         "\n\n".data] :=
  ⟨by norm_num,
   C2_print_3dp_cost_line.1 ⟨"/dev/ttyUSB0", 10, 500, 3⟩ "Ada".data (187 / 5) (by norm_num)⟩

/-- C3: the sublimation receipt's text lines, in order, with the mug count
and mug rate lines present exactly when `cups ≠ 0`; the cost line is the
currency-formatted raw sum `pages*SUBLIMATION_RATE + cups*MUG_RATE`
whether or not the mug lines are shown; with pages=10, cups=2, rates
$0.10/page and $5.00/mug the cost shown is `$11.00` and the mug lines are
present. -/
theorem C3_sublimation_receipt :
    (∀ (cfg : Config) (pages cups : ℕ),
       textsOf (print_sublimation cfg pages cups) =
         ["Northville District Library\n".data,
          "Sublimation\n\n".data,
          "Pages:  ".data ++ natChars pages ++ "\n".data,
          "Rate:   $".data ++ format_currency cfg.SUBLIMATION_RATE ++ "/page\n".data] ++
         (if cups ≠ 0 then
            ["Mugs:   ".data ++ natChars cups ++ "\n".data,
             "Rate:   $".data ++ format_currency cfg.MUG_RATE ++ "/mug\n\n".data]
          else []) ++
         ["Cost:   $".data ++
            format_currency (pages * cfg.SUBLIMATION_RATE + cups * cfg.MUG_RATE) ++ "\n\n".data,
          "\n\n".data]) ∧
    (∀ (cfg : Config) (pages cups : ℕ),
       (SinkOp.textOp ("Mugs:   ".data ++ natChars cups ++ "\n".data) ∈
           print_sublimation cfg pages cups) ↔ cups ≠ 0) ∧
    format_currency (10 * 10 + 2 * 500) = "11.00".data ∧
    SinkOp.textOp "Cost:   $11.00\n\n".data ∈
      print_sublimation ⟨"/dev/ttyUSB0", 10, 500, 3⟩ 10 2 ∧
    SinkOp.textOp ("Mugs:   ".data ++ natChars 2 ++ "\n".data) ∈
      print_sublimation ⟨"/dev/ttyUSB0", 10, 500, 3⟩ 10 2 := by
  refine ⟨?_, ?_, by decide, by decide, by decide⟩
  · intro cfg pages cups
    by_cases h : cups = 0 <;> simp [textsOf, print_sublimation, print_header, print_footer, h]
  · intro cfg pages cups
    by_cases h : cups = 0 <;> simp [print_sublimation, print_header, print_footer, h]

/-- C4: `format_currency` appends a trailing `'0'` to the value's default
string form exactly when that form's fractional part has one digit, and
otherwise returns the default string form unchanged; consequently its
output is always the integral digits, a dot, and exactly two fractional
digits, it contains no `'$'`, and 1.2 ↦ "1.20", 1.25 ↦ "1.25". -/
theorem C4_format_currency_shape :
    (∀ n : ℕ, (splitDotLast (floatStr n)).length = 1 →
       format_currency n = floatStr n ++ ['0']) ∧
    (∀ n : ℕ, (splitDotLast (floatStr n)).length ≠ 1 →
       format_currency n = floatStr n) ∧
    (∀ n : ℕ, format_currency n =
       natChars (n / 100) ++ '.' :: [Nat.digitChar ((n / 10) % 10), Nat.digitChar (n % 10)]) ∧
    format_currency 120 = "1.20".data ∧
    format_currency 125 = "1.25".data ∧
    (∀ n : ℕ, '$' ∉ format_currency n) := by
  refine ⟨?_, ?_, format_currency_eq, by decide, by decide, dollar_not_mem_format_currency⟩
  · intro n h
    rw [format_currency, if_pos h]
  · intro n h
    rw [format_currency, if_neg h]

/-- C4 witness: the append clause at 1.20 (one fractional digit in the
default string form "1.2") and the unchanged clause at 1.25. -/
theorem C4_format_currency_shape_witness :
    ((splitDotLast (floatStr 120)).length = 1 ∧ format_currency 120 = floatStr 120 ++ ['0']) ∧
      ((splitDotLast (floatStr 125)).length ≠ 1 ∧ format_currency 125 = floatStr 125) :=
  ⟨⟨by decide, C4_format_currency_shape.1 120 (by decide)⟩,
   ⟨by decide, C4_format_currency_shape.2.1 125 (by decide)⟩⟩

/-- C5: reading a formatted amount back as a number and formatting it
again reproduces the string, for every value in the documented domain
(non-negative, at most two fractional digits); in particular for the
integer-valued input 5, whose float string form is "5.0" and which
formats as "5.00". -/
theorem C5_format_parse_roundtrip :
    (∀ n : ℕ, format_currency (parseFloatCents (format_currency n)) = format_currency n) ∧
    floatStr 500 = "5.0".data ∧
    format_currency 500 = "5.00".data ∧
    format_currency (parseFloatCents (format_currency 500)) = format_currency 500 := by
  refine ⟨?_, by decide, by decide, by decide⟩
  intro n
  rw [parseFloatCents_format_currency]

/-- Source `format_currency` (src/__main__.py:42) acting directly on the
decimal representation `str(number)` of its argument: this is the source's
string logic for an arbitrary float repr, not restricted to the
two-decimal domain that the cents-level `format_currency` covers.  On the
string of a two-decimal value the two agree (see
`C6_sublimation_float_cost_digits`). -/
def format_currency_str (s : PyStr) : PyStr :=
  if (splitDotLast s).length = 1 then s ++ ['0'] else s

/-- The IEEE-754 double denoted by the Python float literal `0.1`: the
exact value 1/10 rounded to 53 significant bits. -/
def float_0_1 : ℚ := 3602879701896397 / 2 ^ 55

/-- The IEEE-754 double Python computes for `3 * 0.1`: the exact product
`3 * float_0_1 = 10808639105689191 / 2 ^ 55` rounded to 53 significant
bits (a half-ULP tie, resolved to the even significand
5404319552844596), one ULP above the double `0.1 * 3`'s lower neighbour
and distinct from every two-decimal value.  Python's shortest repr prints
it as "0.30000000000000004". -/
def float_3_times_0_1 : ℚ := 1351079888211149 / 2 ^ 52

/-- C6 at the failing input pages=3, cups=0, SUBLIMATION_RATE=$0.10: the
cents-level `format_currency` is the string function `format_currency_str`
on the value's repr; the double `0.1` exceeds 1/10 by 1/(5·2^55), so the
float sum `3 * 0.1` that the source feeds to `format_currency` is
`float_3_times_0_1`, half an ULP (1/2^55) above the exact product and
equal to no two-decimal value n/100 — Python prints it as
"0.30000000000000004" — and `format_currency` returns that string
unchanged, so the displayed sublimation total has 17 fractional digits,
not the 2 the claim asserts of every displayed price string. -/
theorem C6_sublimation_float_cost_digits :
    (∀ n : ℕ, format_currency n = format_currency_str (floatStr n)) ∧
    float_0_1 - 1 / 10 = 1 / (5 * 2 ^ 55) ∧
    float_3_times_0_1 - 3 * float_0_1 = 1 / 2 ^ 55 ∧
    (∀ n : ℕ, (n : ℚ) / 100 ≠ float_3_times_0_1) ∧
    format_currency_str "0.30000000000000004".data = "0.30000000000000004".data ∧
    (splitDotLast "0.30000000000000004".data).length = 17 := by
  refine ⟨fun n => rfl, by norm_num [float_0_1], by norm_num [float_0_1, float_3_times_0_1],
    ?_, by decide, by decide⟩
  intro n h
  rw [float_3_times_0_1,
    div_eq_div_iff (by norm_num : (100 : ℚ) ≠ 0) (by norm_num : (2 : ℚ) ^ 52 ≠ 0)] at h
  have h2 : n * 2 ^ 52 = 1351079888211149 * 100 := by exact_mod_cast h
  norm_num at h2
  omega

/-- C6 witness: the string-level/cents-level agreement and the
no-two-decimal-value clause instantiated at 30 cents (the value $0.30
that the displayed float sum fails to be). -/
theorem C6_sublimation_float_cost_digits_witness :
    format_currency 30 = format_currency_str (floatStr 30) ∧
      (30 : ℚ) / 100 ≠ float_3_times_0_1 :=
  ⟨C6_sublimation_float_cost_digits.1 30,
   by exact_mod_cast C6_sublimation_float_cost_digits.2.2.2.1 30⟩

/-- Executing a straight-line sequence of sink calls when primitives may
raise: since `print_sublimation`/`print_3dp` contain no try/finally, the
calls that actually run are the longest prefix on which `fails` is false;
the first failing primitive raises and aborts the method there. -/
def execUntilFail (fails : SinkOp → Bool) (ops : List SinkOp) : List SinkOp :=
  ops.takeWhile (fun op => !fails op)

theorem not_mem_takeWhile_of_fail_before {α : Type} (x : α) (p : α → Bool) :
    ∀ l : List α, x ∉ l.dropLast → (∃ a ∈ l.dropLast, p a = false) →
      x ∉ l.takeWhile p := by
  intro l
  induction l with
  | nil =>
    intro _ hfail
    simp at hfail
  | cons a t ih =>
    intro hx hfail
    cases t with
    | nil => simp at hfail
    | cons b t' =>
      rw [List.dropLast_cons₂] at hx hfail
      rw [List.takeWhile_cons]
      split
      · intro hmem
        rcases List.mem_cons.mp hmem with rfl | hmem'
        · exact hx (List.mem_cons_self _ _)
        · refine ih ?_ ?_ hmem'
          · intro hc
            exact hx (List.mem_cons_of_mem _ hc)
          · rcases hfail with ⟨c, hc, hcp⟩
            rcases List.mem_cons.mp hc with rfl | hc'
            · rename_i hpa
              rw [hpa] at hcp
              cases hcp
            · exact ⟨c, hc', hcp⟩
      · simp

/-- C7 counterexample: with a sink whose `text` primitive raises on the
"Sublimation" title write, a failing primitive occurs mid-document, yet
`close()` is not among the calls that execute — the operation exits
exceptionally with the sink still open, contradicting the claim that the
sink's `close()` is invoked on every exit path. -/
theorem C7_close_counterexample :
    (∃ op ∈ print_sublimation ⟨"/dev/ttyUSB0", 10, 500, 3⟩ 10 0,
        (fun o => o == SinkOp.textOp "Sublimation\n\n".data) op = true) ∧
      SinkOp.closeOp ∉
        execUntilFail (fun o => o == SinkOp.textOp "Sublimation\n\n".data)
          (print_sublimation ⟨"/dev/ttyUSB0", 10, 500, 3⟩ 10 0) := by
  decide

/-- C7 amended: `close()` is the last primitive each print operation
invokes, so it runs on the normal exit path; but when any earlier
primitive raises, execution aborts there and `close()` is never invoked,
leaving the sink open on the exceptional exit path. -/
theorem C7_close_only_on_normal_exit :
    (∀ (cfg : Config) (pages cups : ℕ),
       (print_sublimation cfg pages cups).getLast? = some SinkOp.closeOp ∧
       SinkOp.closeOp ∉ (print_sublimation cfg pages cups).dropLast ∧
       ∀ fails : SinkOp → Bool,
         (∃ op ∈ (print_sublimation cfg pages cups).dropLast, fails op = true) →
         SinkOp.closeOp ∉ execUntilFail fails (print_sublimation cfg pages cups)) ∧
    (∀ (cfg : Config) (name : PyStr) (w : ℚ),
       (print_3dp cfg name w).getLast? = some SinkOp.closeOp ∧
       SinkOp.closeOp ∉ (print_3dp cfg name w).dropLast ∧
       ∀ fails : SinkOp → Bool,
         (∃ op ∈ (print_3dp cfg name w).dropLast, fails op = true) →
         SinkOp.closeOp ∉ execUntilFail fails (print_3dp cfg name w)) := by
  constructor
  · intro cfg pages cups
    have hlast : (print_sublimation cfg pages cups).getLast? = some SinkOp.closeOp := by
      by_cases h : cups = 0 <;> simp [print_sublimation, print_header, print_footer, h]
    have hdrop : SinkOp.closeOp ∉ (print_sublimation cfg pages cups).dropLast := by
      by_cases h : cups = 0 <;> simp [print_sublimation, print_header, print_footer, h]
    refine ⟨hlast, hdrop, ?_⟩
    intro fails hex
    apply not_mem_takeWhile_of_fail_before _ _ _ hdrop
    rcases hex with ⟨op, hop, hfl⟩
    exact ⟨op, hop, by simp [hfl]⟩
  · intro cfg name w
    have hlast : (print_3dp cfg name w).getLast? = some SinkOp.closeOp := by
      simp [print_3dp, print_header, print_footer]
    have hdrop : SinkOp.closeOp ∉ (print_3dp cfg name w).dropLast := by
      simp [print_3dp, print_header, print_footer]
    refine ⟨hlast, hdrop, ?_⟩
    intro fails hex
    apply not_mem_takeWhile_of_fail_before _ _ _ hdrop
    rcases hex with ⟨op, hop, hfl⟩
    exact ⟨op, hop, by simp [hfl]⟩

/-- C7 witness: the exceptional-path clause instantiated with a concrete
failing `cut` primitive on a concrete sublimation receipt. -/
theorem C7_close_only_on_normal_exit_witness :
    (∃ op ∈ (print_sublimation ⟨"/dev/ttyUSB0", 10, 500, 3⟩ 10 2).dropLast,
        (fun o => o == SinkOp.cutOp) op = true) ∧
      SinkOp.closeOp ∉
        execUntilFail (fun o => o == SinkOp.cutOp)
          (print_sublimation ⟨"/dev/ttyUSB0", 10, 500, 3⟩ 10 2) :=
  ⟨by decide,
   (C7_close_only_on_normal_exit.1 ⟨"/dev/ttyUSB0", 10, 500, 3⟩ 10 2).2.2
     (fun o => o == SinkOp.cutOp) (by decide)⟩

/-- One interaction with the prompt-toolkit front end.  `inputDialogRun`
records an `input_dialog(...).run()` call: the dialog is displayed and
the operator's entry is returned.  `messageDialogCreated` records the
bare `message_dialog(...)` call in the except branch of `prompt_type`
(src/__main__.py:225): the dialog object is created but `.run()` is never
called on it.  `messageDialogDisplayed` would record a displayed message
dialog (`message_dialog(...).run()`); the source contains no such call,
so the embedding never emits it. -/
inductive UIEvent where
  | inputDialogRun (title text entry : PyStr) : UIEvent
  | messageDialogCreated (title text : PyStr) : UIEvent
  | messageDialogDisplayed (title text : PyStr) : UIEvent
  deriving DecidableEq

/-- Python `int(s)` on an operator entry: succeeds on a non-empty string
of decimal digits (the unsigned entries the workflow expects), raises
`ValueError` (here: `none`) otherwise. -/
def pyIntCast (s : PyStr) : Option ℕ :=
  if s ≠ [] ∧ s.all (fun c => c.isDigit) = true then some (parseNat s) else none

/-- Python `float(s)` on an operator entry: succeeds on a string of
decimal digits with at most one dot and at least one digit, raises
`ValueError` (here: `none`) otherwise. -/
def pyFloatCast (s : PyStr) : Option ℚ :=
  if s.all (fun c => c.isDigit || c == '.') = true ∧
      (s.filter (fun c => c == '.')).length ≤ 1 ∧
      s.any (fun c => c.isDigit) = true then
    some ((parseNat (s.takeWhile (fun c => c ≠ '.')) : ℚ) +
      (parseNat ((s.dropWhile (fun c => c ≠ '.')).drop 1) : ℚ) /
        (10 : ℚ) ^ ((s.dropWhile (fun c => c ≠ '.')).drop 1).length)
  else none

/-- Source `ReceiptOMatic.prompt_type` (src/__main__.py:202), driven by
the stream of entries the operator will type: run the input dialog; if
the cast raises `ValueError`, create (but never run, hence never display)
the "Invalid entry" message dialog and recurse on the same field; on a
successful cast return the converted value.  The result is `none` only
when the scripted entries run out, which models the source retrying
forever against an operator who never types a convertible entry. -/
def prompt_type {α : Type} (type_caster : PyStr → Option α) (title text : PyStr) :
    List PyStr → List UIEvent × Option α
  | [] => ([], none)
  | e :: rest =>
    match type_caster e with
    | some v => ([UIEvent.inputDialogRun title text e], some v)
    | none =>
      let r := prompt_type type_caster title text rest
      (UIEvent.inputDialogRun title text e ::
         UIEvent.messageDialogCreated title ("Invalid entry \x27".data ++ e ++ "\x27".data) ::
         r.1,
       r.2)

/-- The three button values of the main menu dialog (src/__main__.py:190):
the strings `"prompt_3dp"`, `"prompt_sub"` and `"quit"` used for the
`getattr` dispatch. -/
inductive MenuChoice where
  | prompt_3dp : MenuChoice
  | prompt_sub : MenuChoice
  | quit : MenuChoice
  deriving DecidableEq

/-- The operator's scripted inputs for one pass through the menu. -/
structure Script where
  name : PyStr
  weightEntries : List PyStr
  pagesEntries : List PyStr
  mugsEntries : List PyStr

/-- How one `ReceiptOMatic.main` dispatch ends: `exited s` models
`sys.exit(s)`, `backToMenu` a handler that finished printing and called
`self.main()` again, `awaitingInput` an operator who never supplied a
convertible entry (the source blocks re-prompting forever). -/
inductive Outcome where
  | exited (status : ℕ) : Outcome
  | backToMenu : Outcome
  | awaitingInput : Outcome
  deriving DecidableEq

/-- Source `ReceiptOMatic.main` (src/__main__.py:188) dispatching one menu
selection, returning the outcome, the printer-sink primitives invoked and
the UI events.  `quit` (src/__main__.py:275) calls `sys.exit(0)` with no
printer interaction.  `prompt_3dp` (src/__main__.py:232) collects the
patron name (free text) and the weight (float, with retries), then prints.
`prompt_sub` (src/__main__.py:253) collects pages then mugs (ints, with
retries), then prints. -/
def ReceiptOMatic_main (cfg : Config) (choice : MenuChoice) (s : Script) :
    Outcome × List SinkOp × List UIEvent :=
  match choice with
  | MenuChoice.quit => (Outcome.exited 0, [], [])
  | MenuChoice.prompt_3dp =>
    let nameEv := UIEvent.inputDialogRun "3D Print Job".data "Enter Patron\x27s Name:".data s.name
    let wr := prompt_type pyFloatCast "3D Print Job".data
      "Enter the weight in grams:".data s.weightEntries
    match wr.2 with
    | some w => (Outcome.backToMenu, print_3dp cfg s.name w, nameEv :: wr.1)
    | none => (Outcome.awaitingInput, [], nameEv :: wr.1)
  | MenuChoice.prompt_sub =>
    let pr := prompt_type pyIntCast "Sublimation".data
      "Enter the number of pages printed:".data s.pagesEntries
    match pr.2 with
    | none => (Outcome.awaitingInput, [], pr.1)
    | some pages =>
      let mr := prompt_type pyIntCast "Sublimation".data
        "Enter the number of mugs purchased:".data s.mugsEntries
      match mr.2 with
      | none => (Outcome.awaitingInput, [], pr.1 ++ mr.1)
      | some mugs => (Outcome.backToMenu, print_sublimation cfg pages mugs, pr.1 ++ mr.1)

/-- An event on the serial device underlying the printer sink. -/
inductive SerialEvent where
  | serialOpened (devfile : String) : SerialEvent
  | serialClosed : SerialEvent
  deriving DecidableEq

/-- Source `MakeItReceiptPrinter.__init__` (src/__main__.py:90): the
`Serial(devfile=config.SERIAL_PORT)` constructor opens the serial
connection (python-escpos opens the device on construction) and the
program immediately closes it.  When the device cannot be opened the
constructor raises and the exception propagates out of `__init__`. -/
def MakeItReceiptPrinter_init (port : String) (deviceAvailable : Bool) :
    Except String (List SerialEvent) :=
  if deviceAvailable then
    Except.ok [SerialEvent.serialOpened port, SerialEvent.serialClosed]
  else Except.error "SerialException"

/-- Source `ReceiptOMatic.__init__` (src/__main__.py:185), which
constructs the printer abstraction. -/
def ReceiptOMatic_init (cfg : Config) (deviceAvailable : Bool) :
    Except String (List SerialEvent) :=
  MakeItReceiptPrinter_init cfg.SERIAL_PORT deviceAvailable

/-- Source module entry `ReceiptOMatic().main()` (src/__main__.py:280):
construct the program object — which probes the printer — then run the
first menu dispatch; if construction raises, the error propagates and the
menu is never shown. -/
def program_run (cfg : Config) (deviceAvailable : Bool) (choice : MenuChoice) (s : Script) :
    Except String (List SerialEvent × (Outcome × List SinkOp × List UIEvent)) :=
  match ReceiptOMatic_init cfg deviceAvailable with
  | Except.error e => Except.error e
  | Except.ok evs => Except.ok (evs, ReceiptOMatic_main cfg choice s)

/-- C8 behaviour at the failing input: no message dialog is ever
displayed by `prompt_type` (the source creates the error dialog but never
calls `.run()` on it); a returned value always comes from an entry the
cast converted successfully; and on the concrete entries "abc" then "12"
for an integer field, the workflow re-prompts the same field, creates
(but does not display) the "Invalid entry 'abc'" dialog, and returns 12. -/
theorem C8_prompt_type_retry :
    (∀ (α : Type) (caster : PyStr → Option α) (title text : PyStr) (entries : List PyStr)
       (t x : PyStr),
       UIEvent.messageDialogDisplayed t x ∉ (prompt_type caster title text entries).1) ∧
    (∀ (α : Type) (caster : PyStr → Option α) (title text : PyStr) (entries : List PyStr)
       (v : α),
       (prompt_type caster title text entries).2 = some v →
       ∃ e ∈ entries, caster e = some v) ∧
    prompt_type pyIntCast "Sublimation".data "Enter the number of pages printed:".data
        ["abc".data, "12".data] =
      ([UIEvent.inputDialogRun "Sublimation".data
          "Enter the number of pages printed:".data "abc".data,
        UIEvent.messageDialogCreated "Sublimation".data "Invalid entry \x27abc\x27".data,
        UIEvent.inputDialogRun "Sublimation".data
          "Enter the number of pages printed:".data "12".data],
       some 12) := by
  refine ⟨?_, ?_, by decide⟩
  · intro α caster title text entries t x
    induction entries with
    | nil => simp [prompt_type]
    | cons e rest ih =>
      rw [prompt_type]
      cases hc : caster e <;> simp [hc, ih]
  · intro α caster title text entries v
    induction entries with
    | nil =>
      intro h
      simp [prompt_type] at h
    | cons e rest ih =>
      intro h
      rw [prompt_type] at h
      cases hc : caster e with
      | some v' =>
        rw [hc] at h
        simp at h
        exact ⟨e, List.mem_cons_self _ _, by rw [hc, h]⟩
      | none =>
        rw [hc] at h
        simp at h
        obtain ⟨e', he', hce'⟩ := ih h
        exact ⟨e', List.mem_cons_of_mem _ he', hce'⟩

/-- C8 witness: the returned-value clause applied at the concrete failing
input, exhibiting the successful entry "12". -/
theorem C8_prompt_type_retry_witness :
    (prompt_type pyIntCast "Sublimation".data "Enter the number of pages printed:".data
        ["abc".data, "12".data]).2 = some 12 ∧
      ∃ e ∈ (["abc".data, "12".data] : List PyStr), pyIntCast e = some 12 :=
  ⟨by decide,
   C8_prompt_type_retry.2.1 ℕ pyIntCast "Sublimation".data
     "Enter the number of pages printed:".data ["abc".data, "12".data] 12 (by decide)⟩

/-- C9: selecting Quit from the menu goes straight to termination with
exit status 0, with no printer-sink primitive invoked on that path. -/
theorem C9_quit_exits_without_printer :
    (∀ (cfg : Config) (s : Script),
       ReceiptOMatic_main cfg MenuChoice.quit s = (Outcome.exited 0, [], [])) ∧
    (∀ (cfg : Config) (s : Script) (op : SinkOp),
       op ∉ (ReceiptOMatic_main cfg MenuChoice.quit s).2.1) := by
  constructor
  · intro cfg s
    rfl
  · intro cfg s op
    simp [ReceiptOMatic_main]

/-- C10: with the device absent the startup probe raises and no menu
dispatch ever happens; with the device present the program opens and
immediately closes the serial port before the menu; hence every run that
reaches the menu opened the printer at least once. -/
theorem C10_startup_serial_probe :
    (∀ (cfg : Config) (choice : MenuChoice) (s : Script),
       program_run cfg false choice s = Except.error "SerialException") ∧
    (∀ (cfg : Config) (choice : MenuChoice) (s : Script),
       program_run cfg true choice s =
         Except.ok ([SerialEvent.serialOpened cfg.SERIAL_PORT, SerialEvent.serialClosed],
           ReceiptOMatic_main cfg choice s)) ∧
    (∀ (cfg : Config) (avail : Bool) (choice : MenuChoice) (s : Script) res,
       program_run cfg avail choice s = Except.ok res →
       SerialEvent.serialOpened cfg.SERIAL_PORT ∈ res.1) := by
  refine ⟨fun cfg choice s => rfl, fun cfg choice s => rfl, ?_⟩
  intro cfg avail choice s res h
  cases avail with
  | false => simp [program_run, ReceiptOMatic_init, MakeItReceiptPrinter_init] at h
  | true =>
    simp only [program_run, ReceiptOMatic_init, MakeItReceiptPrinter_init, if_pos,
      Except.ok.injEq] at h
    rw [← h]
    simp

/-- C10 witness: a run with the device available, reaching the menu with
the serial port opened and closed by the startup probe. -/
theorem C10_startup_serial_probe_witness :
    program_run ⟨"/dev/ttyUSB0", 10, 500, 3⟩ true MenuChoice.quit ⟨[], [], [], []⟩ =
        Except.ok ([SerialEvent.serialOpened "/dev/ttyUSB0", SerialEvent.serialClosed],
          (Outcome.exited 0, [], [])) ∧
      SerialEvent.serialOpened "/dev/ttyUSB0" ∈
        ([SerialEvent.serialOpened "/dev/ttyUSB0", SerialEvent.serialClosed]
          : List SerialEvent) :=
  ⟨rfl,
   C10_startup_serial_probe.2.2 ⟨"/dev/ttyUSB0", 10, 500, 3⟩ true MenuChoice.quit
     ⟨[], [], [], []⟩
     ([SerialEvent.serialOpened "/dev/ttyUSB0", SerialEvent.serialClosed],
       (Outcome.exited 0, [], [])) rfl⟩
